import Mathlib

/-!
Verification development for the `apyee` Yeelight client library.

The repository is a small corpus of two revisions of the same crate:
`src/src/*.rs` (command.rs, method.rs, property.rs, device.rs, lib.rs) and
`src/apyee/src/*.rs` (command.rs, device.rs).  This file shallowly embeds the
data model and the correlation engine of both revisions:

* the JSON data model used by serde (`Json`),
* the wire types of `command.rs` (`Command`, `CommandResponse`,
  `CommandResult`, `CommandResponseError`, `NotificationResult`, `RawCommand`),
* the operation enumeration of `src/src/method.rs` (`Method`, `Effect`) and the
  property enumeration of `src/src/property.rs` (`Property`),
* the response registry and wakeup primitive of `device.rs` (`Responses`,
  `NotifyState`), the two `execute_command` wait loops, and the
  `listen_responses` background-listener step.

Serde's derived (de)serializers are embedded as explicit functions over the
`Json` AST; `serde_json::from_str` is the composition of the generic JSON text
parser with these functions, and the listener model is parameterised over the
two entry parsers so that its control flow is captured for every possible
parse outcome.
-/

namespace Apyee

/-- The JSON value model (`serde_json::Value`).  Numbers are embedded as
integers: every number the library reads or writes is integral. -/
inductive Json where
  | null : Json
  | bool (b : Bool) : Json
  | num (n : Int) : Json
  | str (s : String) : Json
  | arr (elems : List Json) : Json
  | obj (fields : List (String × Json)) : Json
  deriving Repr

/-- First value stored under key `k` in a serde JSON object (serde reads the
fields of an object in order; the frames handled here carry no duplicate
keys). -/
def getField (fields : List (String × Json)) (k : String) : Option Json :=
  match fields with
  | [] => none
  | (k', v) :: rest => if k' = k then some v else getField rest k

/-- `CommandResult` from `src/apyee/src/command.rs` (the `src/src` revision
has only the `Ok` variant; the apyee revision is the superset used here). -/
inductive CommandResult where
  | Ok : CommandResult
  | Off : CommandResult
  | On : CommandResult
  deriving Repr, DecidableEq

/-- `CommandResponseError` from `command.rs`: an error code and message. -/
structure CommandResponseError where
  code : Int
  message : String
  deriving Repr, DecidableEq

/-- `CommandResponse` from `command.rs`: the echoed command id, a list of
results and an optional error. -/
structure CommandResponse where
  id : Int
  result : List CommandResult
  error : Option CommandResponseError
  deriving Repr, DecidableEq

/-- `Property` from `src/src/property.rs`. -/
inductive Property where
  | Power | Bright | Ct | Rgb | Hue | Sat | ColorMode | Flowing
  | DelayOff | FlowParams | MusicOn | Name | BgPower | BgFlowing
  | BgFlowParams | BgCt | BgLmode | BgBright | BgRgb | BgHue | BgSat
  | NlBr | ActiveMode
  deriving Repr, DecidableEq

/-- Serde name of a `Property` (`rename_all = "snake_case"`). -/
def Property.serdeName : Property → String
  | .Power => "power"
  | .Bright => "bright"
  | .Ct => "ct"
  | .Rgb => "rgb"
  | .Hue => "hue"
  | .Sat => "sat"
  | .ColorMode => "color_mode"
  | .Flowing => "flowing"
  | .DelayOff => "delay_off"
  | .FlowParams => "flow_params"
  | .MusicOn => "music_on"
  | .Name => "name"
  | .BgPower => "bg_power"
  | .BgFlowing => "bg_flowing"
  | .BgFlowParams => "bg_flow_params"
  | .BgCt => "bg_ct"
  | .BgLmode => "bg_lmode"
  | .BgBright => "bg_bright"
  | .BgRgb => "bg_rgb"
  | .BgHue => "bg_hue"
  | .BgSat => "bg_sat"
  | .NlBr => "nl_br"
  | .ActiveMode => "active_mode"

/-- Derived deserializer of `Property` from its serde string name. -/
def Property.fromString (s : String) : Option Property :=
  if s = "power" then some .Power
  else if s = "bright" then some .Bright
  else if s = "ct" then some .Ct
  else if s = "rgb" then some .Rgb
  else if s = "hue" then some .Hue
  else if s = "sat" then some .Sat
  else if s = "color_mode" then some .ColorMode
  else if s = "flowing" then some .Flowing
  else if s = "delay_off" then some .DelayOff
  else if s = "flow_params" then some .FlowParams
  else if s = "music_on" then some .MusicOn
  else if s = "name" then some .Name
  else if s = "bg_power" then some .BgPower
  else if s = "bg_flowing" then some .BgFlowing
  else if s = "bg_flow_params" then some .BgFlowParams
  else if s = "bg_ct" then some .BgCt
  else if s = "bg_lmode" then some .BgLmode
  else if s = "bg_bright" then some .BgBright
  else if s = "bg_rgb" then some .BgRgb
  else if s = "bg_hue" then some .BgHue
  else if s = "bg_sat" then some .BgSat
  else if s = "nl_br" then some .NlBr
  else if s = "active_mode" then some .ActiveMode
  else none

/-- `NotificationResult` from `src/apyee/src/command.rs`: an event name and a
map of changed properties (the `HashMap<Property, Value>` is embedded as an
association list in arrival order). -/
structure NotificationResult where
  method : String
  params : List (Property × Json)
  deriving Repr

/-- Derived deserializer of a `CommandResult` (externally tagged unit enum:
one of the strings `"ok"`, `"off"`, `"on"`). -/
def CommandResult.fromJson : Json → Option CommandResult
  | .str "ok" => some .Ok
  | .str "off" => some .Off
  | .str "on" => some .On
  | _ => none

/-- Element-wise deserialization of a JSON array (serde `Vec<T>`). -/
def listFromJson (f : Json → Option α) : List Json → Option (List α)
  | [] => some []
  | x :: xs =>
    match f x, listFromJson f xs with
    | some a, some as_ => some (a :: as_)
    | _, _ => none

/-- Derived deserializer of `CommandResponse`
(`serde_json::from_str::<CommandResponse>` after generic JSON parsing).
Serde semantics embedded: the fields `id` and `result` are required, the
`Option` field `error` defaults to `None` when missing (witnessed by the
`test_response_parsing` test in `src/src/lib.rs`, which parses a frame with
no `error` field), `null` deserializes to `None`, and unknown fields are
ignored.  `id` is an `i32`, so out-of-range numbers are rejected. -/
def CommandResponse.fromJson : Json → Option CommandResponse
  | .obj fields =>
    match getField fields "id", getField fields "result" with
    | some (.num i), some (.arr rs) =>
      if -(2 ^ 31) ≤ i ∧ i < 2 ^ 31 then
        match listFromJson CommandResult.fromJson rs with
        | some results =>
          match getField fields "error" with
          | none => some ⟨i, results, none⟩
          | some .null => some ⟨i, results, none⟩
          | some (.obj efields) =>
            match getField efields "code", getField efields "message" with
            | some (.num c), some (.str m) =>
              if -(2 ^ 31) ≤ c ∧ c < 2 ^ 31 then some ⟨i, results, some ⟨c, m⟩⟩
              else none
            | _, _ => none
          | some _ => none
        | none => none
      else none
    | _, _ => none
  | _ => none

/-- Deserialization of the `HashMap<Property, Value>` notification payload:
every key must parse as a `Property` name; values are arbitrary JSON. -/
def notificationParamsFromFields : List (String × Json) → Option (List (Property × Json))
  | [] => some []
  | (k, v) :: rest =>
    match Property.fromString k, notificationParamsFromFields rest with
    | some p, some ps => some ((p, v) :: ps)
    | _, _ => none

/-- Derived deserializer of `NotificationResult`
(`serde_json::from_str::<NotificationResult>` after generic JSON parsing):
requires a string field `method` and an object field `params` whose keys are
`Property` names; unknown fields are ignored. -/
def NotificationResult.fromJson : Json → Option NotificationResult
  | .obj fields =>
    match getField fields "method", getField fields "params" with
    | some (.str m), some (.obj pfields) =>
      match notificationParamsFromFields pfields with
      | some ps => some ⟨m, ps⟩
      | none => none
    | _, _ => none
  | _ => none

/-- `Effect` from `src/src/method.rs`. -/
inductive Effect where
  | Sudden : Effect
  | Smooth : Effect
  deriving Repr, DecidableEq

/-- Serde name of an `Effect` (`rename_all = "snake_case"`). -/
def Effect.serdeName : Effect → String
  | .Sudden => "sudden"
  | .Smooth => "smooth"

/-- `Method` from `src/src/method.rs` (the revision with distinct
effect/duration variants sharing one serde name via `#[serde(rename)]`). -/
inductive Method where
  | GetProp (p : Property)
  | GetProps (ps : List Property)
  | Toggle
  | SetPower (power : Bool)
  | SetPowerEffect (power : Bool) (e : Effect)
  | SetPowerEffectDuration (power : Bool) (e : Effect) (d : Int)
  | SetRgb (rgb : Int)
  | SetRgbEffect (rgb : Int) (e : Effect)
  | SetRgbEffectDuration (rgb : Int) (e : Effect) (d : Int)
  | SetHsv (hue sat : Int)
  | SetHsvEffect (hue sat : Int) (e : Effect)
  | SetHsvEffectDuration (hue sat : Int) (e : Effect) (d : Int)
  | SetBright (bright : Int)
  | SetBrightEffect (bright : Int) (e : Effect)
  | SetBrightEffectDuration (bright : Int) (e : Effect) (d : Int)
  | SetDefault
  | BgSetRgb (rgb : Int)
  | BgSetRgbEffect (rgb : Int) (e : Effect)
  | BgSetRgbEffectDuration (rgb : Int) (e : Effect) (d : Int)
  | BgSetHsv (hue sat : Int)
  | BgSetHsvEffect (hue sat : Int) (e : Effect)
  | BgSetHsvEffectDuration (hue sat : Int) (e : Effect) (d : Int)
  | BgSetDefault
  | BgSetPower (power : Bool)
  | BgSetPowerEffect (power : Bool) (e : Effect)
  | BgSetPowerEffectDuration (power : Bool) (e : Effect) (d : Int)
  | BgSetBright (bright : Int)
  | BgSetBrightEffect (bright : Int) (e : Effect)
  | BgSetBrightEffectDuration (bright : Int) (e : Effect) (d : Int)
  | SetCtAbx (ct : Int)
  | SetCtAbxEffect (ct : Int) (e : Effect)
  | SetCtAbxEffectDuration (ct : Int) (e : Effect) (d : Int)
  | BgSetCtAbx (ct : Int)
  | BgSetCtAbxEffect (ct : Int) (e : Effect)
  | BgSetCtAbxEffectDuration (ct : Int) (e : Effect) (d : Int)
  deriving Repr, DecidableEq

/-- Serde variant name of a `Method`
(`serde_variant::to_variant_name`, honouring `rename_all = "snake_case"` and
the explicit `#[serde(rename = ...)]` attributes, under which the effect and
duration variants share the base variant's name). -/
def Method.serdeName : Method → String
  | .GetProp _ => "get_prop"
  | .GetProps _ => "get_prop"
  | .Toggle => "toggle"
  | .SetPower _ => "set_power"
  | .SetPowerEffect _ _ => "set_power"
  | .SetPowerEffectDuration _ _ _ => "set_power"
  | .SetRgb _ => "set_rgb"
  | .SetRgbEffect _ _ => "set_rgb"
  | .SetRgbEffectDuration _ _ _ => "set_rgb"
  | .SetHsv _ _ => "set_hsv"
  | .SetHsvEffect _ _ _ => "set_hsv"
  | .SetHsvEffectDuration _ _ _ _ => "set_hsv"
  | .SetBright _ => "set_bright"
  | .SetBrightEffect _ _ => "set_bright"
  | .SetBrightEffectDuration _ _ _ => "set_bright"
  | .SetDefault => "set_default"
  | .BgSetRgb _ => "bg_set_rgb"
  | .BgSetRgbEffect _ _ => "bg_set_rgb"
  | .BgSetRgbEffectDuration _ _ _ => "bg_set_rgb"
  | .BgSetHsv _ _ => "bg_set_hsv"
  | .BgSetHsvEffect _ _ _ => "bg_set_hsv"
  | .BgSetHsvEffectDuration _ _ _ _ => "bg_set_hsv"
  | .BgSetDefault => "bg_set_default"
  | .BgSetPower _ => "bg_set_power"
  | .BgSetPowerEffect _ _ => "bg_set_power"
  | .BgSetPowerEffectDuration _ _ _ => "bg_set_power"
  | .BgSetBright _ => "bg_set_bright"
  | .BgSetBrightEffect _ _ => "bg_set_bright"
  | .BgSetBrightEffectDuration _ _ _ => "bg_set_bright"
  | .SetCtAbx _ => "set_ct_abx"
  | .SetCtAbxEffect _ _ => "set_ct_abx"
  | .SetCtAbxEffectDuration _ _ _ => "set_ct_abx"
  | .BgSetCtAbx _ => "bg_set_ct_abx"
  | .BgSetCtAbxEffect _ _ => "bg_set_ct_abx"
  | .BgSetCtAbxEffectDuration _ _ _ => "bg_set_ct_abx"

/-- Modelled from the spec: the `GetParams` / `IntoJsonValue` derive macros
live in the workspace crate `get_params_derive`, which is not under `src/`.
Per spec §6 the operation catalog supplies the ordered parameter list of an
operation; the `src/src/lib.rs` tests pin the concrete encoding
(`set_rgb` → `[16711680, "smooth", 500]`, `get_prop` on a property list →
`["power", "rgb", "bg_rgb"]`): each variant argument in order, booleans and
integers as themselves, `Effect` and `Property` as their serde name strings,
and a property list flattened into the parameter list. -/
def Method.get_params : Method → List Json
  | .GetProp p => [.str p.serdeName]
  | .GetProps ps => ps.map (fun p => .str p.serdeName)
  | .Toggle => []
  | .SetPower b => [.bool b]
  | .SetPowerEffect b e => [.bool b, .str e.serdeName]
  | .SetPowerEffectDuration b e d => [.bool b, .str e.serdeName, .num d]
  | .SetRgb c => [.num c]
  | .SetRgbEffect c e => [.num c, .str e.serdeName]
  | .SetRgbEffectDuration c e d => [.num c, .str e.serdeName, .num d]
  | .SetHsv h s => [.num h, .num s]
  | .SetHsvEffect h s e => [.num h, .num s, .str e.serdeName]
  | .SetHsvEffectDuration h s e d => [.num h, .num s, .str e.serdeName, .num d]
  | .SetBright b => [.num b]
  | .SetBrightEffect b e => [.num b, .str e.serdeName]
  | .SetBrightEffectDuration b e d => [.num b, .str e.serdeName, .num d]
  | .SetDefault => []
  | .BgSetRgb c => [.num c]
  | .BgSetRgbEffect c e => [.num c, .str e.serdeName]
  | .BgSetRgbEffectDuration c e d => [.num c, .str e.serdeName, .num d]
  | .BgSetHsv h s => [.num h, .num s]
  | .BgSetHsvEffect h s e => [.num h, .num s, .str e.serdeName]
  | .BgSetHsvEffectDuration h s e d => [.num h, .num s, .str e.serdeName, .num d]
  | .BgSetDefault => []
  | .BgSetPower b => [.bool b]
  | .BgSetPowerEffect b e => [.bool b, .str e.serdeName]
  | .BgSetPowerEffectDuration b e d => [.bool b, .str e.serdeName, .num d]
  | .BgSetBright b => [.num b]
  | .BgSetBrightEffect b e => [.num b, .str e.serdeName]
  | .BgSetBrightEffectDuration b e d => [.num b, .str e.serdeName, .num d]
  | .SetCtAbx c => [.num c]
  | .SetCtAbxEffect c e => [.num c, .str e.serdeName]
  | .SetCtAbxEffectDuration c e d => [.num c, .str e.serdeName, .num d]
  | .BgSetCtAbx c => [.num c]
  | .BgSetCtAbxEffect c e => [.num c, .str e.serdeName]
  | .BgSetCtAbxEffectDuration c e d => [.num c, .str e.serdeName, .num d]

/-- `Command` from `src/src/command.rs`: `id: usize` (embedded as `Nat`),
a `Method` and the JSON parameter list. -/
structure Command where
  id : Nat
  method : Method
  params : List Json
  deriving Repr

/-- `Command::new` (`src/src/command.rs`): the params are computed from the
method by `get_params`. -/
def Command.new (id : Nat) (method : Method) : Command :=
  ⟨id, method, method.get_params⟩

/-- Derived serializer of `Command` (`serde_json::to_string`): the struct
fields in declaration order, with the `method` field emitted as the bare
variant name string via the `variant_name_only` helper. -/
def Command.toJson (c : Command) : Json :=
  .obj [("id", .num (c.id : Int)), ("method", .str c.method.serdeName),
        ("params", .arr c.params)]

/-- Derived deserializer of an `Effect` (unit enum from its name string). -/
def Effect.fromJson : Json → Option Effect
  | .str "sudden" => some .Sudden
  | .str "smooth" => some .Smooth
  | _ => none

/-- Derived deserializer of a `Property` value. -/
def Property.fromJson : Json → Option Property
  | .str s => Property.fromString s
  | _ => none

/-- Variant content deserializer for the externally tagged map form
`{"<variant>": <data>}` of `Method`.  Several variants share one serde name;
as in the generated serde code the textually first variant with a given name
wins (the later match arms are unreachable), so each name maps to the
plain (effect-free) variant.  Newtype variants take their single value
directly, tuple variants a sequence, unit variants `null`. -/
def Method.fromNameData (name : String) (data : Json) : Option Method :=
  if name = "get_prop" then
    match Property.fromJson data with
    | some p => some (.GetProp p)
    | none => none
  else if name = "toggle" then
    match data with
    | .null => some .Toggle
    | _ => none
  else if name = "set_power" then
    match data with
    | .bool b => some (.SetPower b)
    | _ => none
  else if name = "set_rgb" then
    match data with
    | .num c => some (.SetRgb c)
    | _ => none
  else if name = "set_hsv" then
    match data with
    | .arr [.num h, .num s] => some (.SetHsv h s)
    | _ => none
  else if name = "set_bright" then
    match data with
    | .num b => some (.SetBright b)
    | _ => none
  else if name = "set_default" then
    match data with
    | .null => some .SetDefault
    | _ => none
  else if name = "bg_set_rgb" then
    match data with
    | .num c => some (.BgSetRgb c)
    | _ => none
  else if name = "bg_set_hsv" then
    match data with
    | .arr [.num h, .num s] => some (.BgSetHsv h s)
    | _ => none
  else if name = "bg_set_default" then
    match data with
    | .null => some .BgSetDefault
    | _ => none
  else if name = "bg_set_power" then
    match data with
    | .bool b => some (.BgSetPower b)
    | _ => none
  else if name = "bg_set_bright" then
    match data with
    | .num b => some (.BgSetBright b)
    | _ => none
  else if name = "set_ct_abx" then
    match data with
    | .num c => some (.SetCtAbx c)
    | _ => none
  else if name = "bg_set_ct_abx" then
    match data with
    | .num c => some (.BgSetCtAbx c)
    | _ => none
  else none

/-- Derived deserializer of `Method` (externally tagged enum).  A bare string
names a variant and succeeds only for the unit variants (`Toggle`,
`SetDefault`, `BgSetDefault`); a string naming a variant that carries data is
an error.  A single-entry map `{"<variant>": <data>}` deserializes the
variant's content. -/
def Method.fromJson : Json → Option Method
  | .str s =>
    if s = "toggle" then some .Toggle
    else if s = "set_default" then some .SetDefault
    else if s = "bg_set_default" then some .BgSetDefault
    else none
  | .obj [(name, data)] => Method.fromNameData name data
  | _ => none

/-- Derived deserializer of `Command` for the `src/src` revision, which has no
`#[serde(from = "RawCommand")]` attribute: all three fields are required and
the `method` field goes through `Method`'s own derived deserializer.
`id: usize` rejects negative numbers (and numbers beyond 64 bits). -/
def Command.fromJson : Json → Option Command
  | .obj fields =>
    match getField fields "id", getField fields "method", getField fields "params" with
    | some (.num i), some m, some (.arr ps) =>
      if 0 ≤ i ∧ i < 2 ^ 64 then
        match Method.fromJson m with
        | some method => some ⟨i.toNat, method, ps⟩
        | none => none
      else none
    | _, _, _ => none
  | _ => none

/-- `RawCommand` from `src/apyee/src/command.rs`: the untyped request frame
`{ id: i32, method: String, params: Vec<Value> }` through which the apyee
revision deserializes a `Command`. -/
structure RawCommand where
  id : Int
  method : String
  params : List Json
  deriving Repr

/-- Derived deserializer of `RawCommand`: all three fields required, `id` an
`i32`, `method` a string, `params` an array of arbitrary values. -/
def RawCommand.fromJson : Json → Option RawCommand
  | .obj fields =>
    match getField fields "id", getField fields "method", getField fields "params" with
    | some (.num i), some (.str m), some (.arr ps) =>
      if -(2 ^ 31) ≤ i ∧ i < 2 ^ 31 then some ⟨i, m, ps⟩ else none
    | _, _, _ => none
  | _ => none

/-- Modelled from the spec: the apyee revision's `method.rs`
(`Method::from(&RawCommand)`) is not under `src/`; per spec §6 the operation
catalog maps between a logical operation and its
`(operation name, ordered parameter list)` pair, so the reconstructed
operation is embedded by that pair. -/
structure CatalogOp where
  name : String
  params : List Json
  deriving Repr

/-- The apyee revision's `Command` as produced by
`impl From<RawCommand> for Command` (`src/apyee/src/command.rs` lines 39-47):
the id and params are taken from the raw frame verbatim and the method is
reconstructed from the raw frame (reconstruction modelled from the spec via
`CatalogOp`, see above). -/
structure CommandOfRaw where
  id : Int
  method : CatalogOp
  params : List Json
  deriving Repr

/-- `Command::from(raw)` for the apyee revision (`From<RawCommand>`), with
`Method::from(&raw)` modelled from the spec as the catalog pair. -/
def CommandOfRaw.from_raw (raw : RawCommand) : CommandOfRaw :=
  ⟨raw.id, ⟨raw.method, raw.params⟩, raw.params⟩

/-! ## The response registry and wakeup primitive (`device.rs`) -/

/-- Lookup in the association-list embedding of `HashMap<i32, CommandResponse>`. -/
def findResp : List (Int × CommandResponse) → Int → Option CommandResponse
  | [], _ => none
  | (k, v) :: rest, id => if k = id then some v else findResp rest id

/-- Remove the entry with the given key. -/
def removeResp : List (Int × CommandResponse) → Int → List (Int × CommandResponse)
  | [], _ => []
  | (k, v) :: rest, id =>
    if k = id then removeResp rest id else (k, v) :: removeResp rest id

/-- `Responses` from `device.rs`: the shared registry mapping command id to
completed response (`HashMap<i32, CommandResponse>` embedded as an
association list with at most one entry per key). -/
structure Responses where
  responses : List (Int × CommandResponse)
  deriving Repr, DecidableEq

/-- `Responses::new`. -/
def Responses.new : Responses := ⟨[]⟩

/-- `Responses::add`: `self.responses.insert(response.id, response)` —
stores the response under its own id, replacing any prior value. -/
def Responses.add (rs : Responses) (r : CommandResponse) : Responses :=
  ⟨(r.id, r) :: removeResp rs.responses r.id⟩

/-- `Responses::consume`: `self.responses.remove(&id)` — removes and returns
the entry for `id` if present. -/
def Responses.consume (rs : Responses) (id : Int) :
    Option CommandResponse × Responses :=
  (findResp rs.responses id, ⟨removeResp rs.responses id⟩)

/-- The state of the `tokio::sync::Notify` used as the registry's wakeup
primitive: at most one stored permit, plus the queue of currently blocked
waiters (identified by arbitrary tags). -/
structure NotifyState where
  permit : Bool
  waiters : List Nat
  deriving Repr, DecidableEq

/-- `Notify::notify_one`: wakes the frontmost blocked waiter if there is one;
otherwise stores a single permit (a second `notify_one` with no waiter does
not accumulate).  Returns the list of waiters woken by this call. -/
def NotifyState.notify_one (ns : NotifyState) : List Nat × NotifyState :=
  match ns.waiters with
  | [] => ([], ⟨true, []⟩)
  | w :: rest => ([w], ⟨ns.permit, rest⟩)

/-- Combined registry-and-notify state shared between the listener task and
the `execute_command` callers. -/
structure RegistryState where
  responses : Responses
  notify : NotifyState
  deriving Repr, DecidableEq

/-- The listener's insertion step (`device.rs`:
`responses.lock().await.add(response); notify.notify_one();`): store the
response, then wake (at most) one waiter. -/
def listenerInsert (r : CommandResponse) (s : RegistryState) :
    List Nat × RegistryState :=
  let (woken, ns) := s.notify.notify_one
  (woken, ⟨s.responses.add r, ns⟩)

/-! ## The `execute_command` wait loops

Both revisions wrap the loop in an outer deadline (10 s / 20 s) and an inner
per-wait deadline (3 s / 5 s) whose elapse propagates out of the loop through
`?` as the `Timeout` error.  The loops are embedded in a closed world: the
fuel argument bounds the number of iterations the outer deadline admits, and
no insertions or notifications occur while the loop runs, so a blocked
`notified().await` completes exactly when the `Notify` holds a stored permit
(permit consumed), and otherwise the inner deadline elapses. -/

/-- Outcome of one `execute_command` call: the matched response, or the
`DeviceError::Timeout` produced when an inner or outer deadline elapses. -/
inductive ExecOutcome where
  | ok (r : CommandResponse)
  | timeout
  deriving Repr, DecidableEq

/-- The wait loop of `Device::execute_command` in `src/src/device.rs`
(lines 231-241): each iteration first awaits `notify.notified()` under the
inner deadline — the `?` aborts the whole call with `Timeout` if that wait
elapses — and only after a successful wait checks
`responses.lock().await.consume(command.id)`. -/
def executeLoopWaitFirst : Nat → Responses → Bool → Int → ExecOutcome
  | 0, _, _, _ => .timeout
  | fuel + 1, reg, permit, id =>
    if permit then
      match reg.consume id with
      | (some r, _) => .ok r
      | (none, reg') => executeLoopWaitFirst fuel reg' false id
    else .timeout

/-- The wait loop of `Device::execute_command` in `src/apyee/src/device.rs`
(lines 238-250): each iteration first checks
`responses.lock().await.consume(command.id)` and only when absent awaits
`notify.notified()` under the inner deadline (whose elapse aborts the call
with `Timeout` through `?`). -/
def executeLoopCheckFirst : Nat → Responses → Bool → Int → ExecOutcome
  | 0, _, _, _ => .timeout
  | fuel + 1, reg, permit, id =>
    match reg.consume id with
    | (some r, _) => .ok r
    | (none, reg') =>
      if permit then executeLoopCheckFirst fuel reg' false id
      else .timeout

/-! ## The background listener (`Device::listen_responses`) -/

/-- `DeviceError` from `device.rs`.  Exactly these four variants exist; in
particular there is no `ConnectionClosed` variant. -/
inductive DeviceError where
  | io : DeviceError
  | json : DeviceError
  | timeout : DeviceError
  | utf8 : DeviceError
  deriving Repr, DecidableEq

/-- Is `b` a UTF-8 continuation byte (`0x80..=0xBF`)? -/
def isUtf8Cont (b : Nat) : Bool := 0x80 ≤ b && b < 0xC0

/-- Strict UTF-8 decoding (`std::str::from_utf8`): rejects continuation-byte
prefixes, overlong encodings, surrogate code points and values above
`0x10FFFF`, exactly as Rust's validator does. -/
def utf8Decode : List Nat → Option (List Char)
  | [] => some []
  | b1 :: rest =>
    if b1 < 0x80 then
      match utf8Decode rest with
      | some cs => some (Char.ofNat b1 :: cs)
      | none => none
    else if b1 < 0xC2 then none
    else if b1 < 0xE0 then
      match rest with
      | b2 :: rest2 =>
        if isUtf8Cont b2 then
          match utf8Decode rest2 with
          | some cs => some (Char.ofNat ((b1 - 0xC0) * 0x40 + (b2 - 0x80)) :: cs)
          | none => none
        else none
      | [] => none
    else if b1 < 0xF0 then
      match rest with
      | b2 :: b3 :: rest3 =>
        if (if b1 = 0xE0 then decide (0xA0 ≤ b2) && decide (b2 < 0xC0)
            else if b1 = 0xED then decide (0x80 ≤ b2) && decide (b2 < 0xA0)
            else isUtf8Cont b2) && isUtf8Cont b3 then
          match utf8Decode rest3 with
          | some cs =>
            some (Char.ofNat ((b1 - 0xE0) * 0x1000 + (b2 - 0x80) * 0x40 + (b3 - 0x80)) :: cs)
          | none => none
        else none
      | _ => none
    else if b1 < 0xF5 then
      match rest with
      | b2 :: b3 :: b4 :: rest4 =>
        if (if b1 = 0xF0 then decide (0x90 ≤ b2) && decide (b2 < 0xC0)
            else if b1 = 0xF4 then decide (0x80 ≤ b2) && decide (b2 < 0x90)
            else isUtf8Cont b2) && isUtf8Cont b3 && isUtf8Cont b4 then
          match utf8Decode rest4 with
          | some cs =>
            some (Char.ofNat
              ((b1 - 0xF0) * 0x40000 + (b2 - 0x80) * 0x1000 + (b3 - 0x80) * 0x40 + (b4 - 0x80)) :: cs)
          | none => none
        else none
      | _ => none
    else none

/-- Scanner for `str::split` with the two-character pattern `"\r\n"`:
non-overlapping occurrences are found left to right; `acc` holds the current
segment reversed. -/
def splitTerminatorAux : List Char → List Char → List (List Char)
  | [], acc => [acc.reverse]
  | '\r' :: '\n' :: rest, acc => acc.reverse :: splitTerminatorAux rest []
  | c :: rest, acc => splitTerminatorAux rest (c :: acc)

/-- `data.split_terminator("\r\n")` from `listen_responses`: like `split`,
except the final empty segment produced when the string ends with the
terminator is skipped. -/
def splitTerminatorCRLF (s : String) : List String :=
  let parts := splitTerminatorAux s.data []
  let parts :=
    match parts.getLast? with
    | some [] => parts.dropLast
    | _ => parts
  parts.map String.mk

/-- The per-entry body of the listener's read loop (`listen_responses`, the
two independent `if let Ok(...) = serde_json::from_str::<_>(entry)`
statements), parameterised over the two entry parsers so the control flow is
captured for every possible parse outcome.  A successful `CommandResponse`
parse stores the response and calls `notify_one`; the `NotificationResult`
branch contains only a `TODO` comment, so it has no effect; a frame matching
neither parser is skipped. -/
def processEntries (pR : String → Option CommandResponse)
    (pN : String → Option NotificationResult) :
    List String → RegistryState → RegistryState
  | [], s => s
  | e :: rest, s =>
    let s1 :=
      match pR e with
      | some r => (listenerInsert r s).2
      | none => s
    let s2 :=
      match pN e with
      | some _ => s1
      | none => s1
    processEntries pR pN rest s2

/-- One delivery of the stream to `try_read` in the listener loop. -/
inductive ReadEvent where
  | read (bytes : List Nat)
  | wouldBlock
  | ioFailure
  deriving Repr, DecidableEq

/-- Whether the listener task keeps looping after a step, or terminates
(returning `Ok(())` or an error that `listen_responses_console_error` merely
prints). -/
inductive ListenerOutcome where
  | running : ListenerOutcome
  | doneOk : ListenerOutcome
  | doneErr (e : DeviceError) : ListenerOutcome
  deriving Repr, DecidableEq

/-- One iteration of the `listen_responses` loop (`src/src/device.rs` lines
251-284; `src/apyee/src/device.rs` is identical here):
`Ok(0)` returns `Ok(())` — without touching the registry or waking waiters;
`Ok(n)` decodes the fresh 8192-byte buffer's prefix with `from_utf8` whose
failure propagates through `?` and terminates the task, then splits the read
in isolation on `"\r\n"` and processes each entry; `WouldBlock` sleeps and
continues; any other I/O error terminates the task. -/
def listenStep (pR : String → Option CommandResponse)
    (pN : String → Option NotificationResult)
    (ev : ReadEvent) (s : RegistryState) : ListenerOutcome × RegistryState :=
  match ev with
  | .read bytes =>
    if bytes = [] then (.doneOk, s)
    else
      match utf8Decode bytes with
      | none => (.doneErr .utf8, s)
      | some chars =>
        (.running, processEntries pR pN (splitTerminatorCRLF (String.mk chars)) s)
  | .wouldBlock => (.running, s)
  | .ioFailure => (.doneErr .io, s)

/-- Modelled from the spec (§4.3): the mandated demultiplexer buffering —
append each read to an internal buffer carried across reads, extract only
complete `"\r\n"`-terminated frames, and keep the bytes after the last
terminator buffered for the next read.  Used solely as the comparison model
for the buffering claim; the helper returns the extracted complete frames
and the remaining buffer. -/
def extractFramesAux : List Char → List Char → List (List Char) × List Char
  | [], acc => ([], acc.reverse)
  | '\r' :: '\n' :: rest, acc =>
    let (fs, rem) := extractFramesAux rest []
    (acc.reverse :: fs, rem)
  | c :: rest, acc => extractFramesAux rest (c :: acc)

/-- Modelled from the spec (§4.3): one buffered read step — the new read is
appended to the carried buffer, the complete frames are extracted, and the
tail after the last terminator becomes the next buffer. -/
def bufferedExtract (buffer read : String) : List String × String :=
  let (fs, rem) := extractFramesAux (buffer ++ read).data []
  (fs.map String.mk, String.mk rem)

/-! ## The id generator and RGB packing (`device.rs`) -/

/-- Two's-complement wraparound of `i32` arithmetic: the unique integer in
`[-2^31, 2^31)` congruent to `x` modulo `2^32`. -/
def wrap32 (x : Int) : Int := (x + 2 ^ 31) % 2 ^ 32 - 2 ^ 31

/-- `UniqueCommandId::next` (`device.rs` lines 47-49):
`self.id.fetch_add(1, Ordering::Relaxed)` on the `AtomicI32` — a total
function returning the current counter value and storing the successor,
which wraps around modulo `2^32` on overflow rather than failing. -/
def UniqueCommandId.next (s : Int) : Int × Int := (s, wrap32 (s + 1))

/-- The (returned id, new counter) pair after the `k`-th call to `next`,
starting from counter value `s0` (as set by `UniqueCommandId::new` to a
random value in `15..1500`). -/
def UniqueCommandId.idSeq (s0 : Int) : Nat → Int × Int
  | 0 => UniqueCommandId.next s0
  | k + 1 => UniqueCommandId.next (UniqueCommandId.idSeq s0 k).2

/-- The id returned by the `k`-th call to `next`. -/
def UniqueCommandId.nthId (s0 : Int) (k : Nat) : Int :=
  (UniqueCommandId.idSeq s0 k).1

/-- `Device::get_rgb_color` (`device.rs` lines 167-169):
`(r as i32) << 16 | (g as i32) << 8 | (b as i32)` with `u8` arguments
(embedded as `Fin 256`).  Every intermediate value is below `2^24 < 2^31`,
so the `i32` computation is exact and is carried out over `Nat`, cast to
`Int` (the `i32` result) at the end. -/
def Device.get_rgb_color (r g b : Fin 256) : Int :=
  (((r.val <<< 16 ||| g.val <<< 8) ||| b.val : Nat) : Int)

/-! ## Registry operation sequences (for the eviction analysis)

The complete set of operations `device.rs` ever performs on the registry
map: `add` (the listener, on every parsed response) and `consume` (an
`execute_command` caller, for its own id).  `Responses` has no other method
and no eviction or expiry path. -/

/-- One registry-map operation. -/
inductive RegOp where
  | add (r : CommandResponse)
  | consume (id : Int)
  deriving Repr, DecidableEq

/-- Apply one registry operation. -/
def applyRegOp : RegOp → Responses → Responses
  | .add r, reg => reg.add r
  | .consume id, reg => (reg.consume id).2

/-- Apply a sequence of registry operations in order. -/
def applyRegOps (ops : List RegOp) (reg : Responses) : Responses :=
  ops.foldl (fun reg o => applyRegOp o reg) reg

/-! ## Shared helper lemmas -/

/-- Removing the entry for one key leaves lookups of a different key
unchanged. -/
theorem findResp_removeResp (l : List (Int × CommandResponse)) (j id : Int)
    (h : j ≠ id) : findResp (removeResp l j) id = findResp l id := by
  induction l with
  | nil => rfl
  | cons p rest ih =>
    obtain ⟨k, v⟩ := p
    simp only [removeResp]
    by_cases hk : k = j
    · rw [if_pos hk, ih]
      have hkid : ¬k = id := by rw [hk]; exact h
      simp [findResp, hkid]
    · rw [if_neg hk]
      by_cases hid : k = id
      · simp [findResp, hid]
      · simp [findResp, hid, ih]

/-- After `Responses::add`, looking up the stored response's own id finds it. -/
theorem consume_add_self (reg : Responses) (r : CommandResponse) :
    (Responses.add reg r).consume r.id = (some r, ⟨removeResp reg.responses r.id⟩) := by
  simp [Responses.add, Responses.consume, findResp, removeResp]
  induction reg.responses with
  | nil => rfl
  | cons p rest ih =>
    obtain ⟨k, v⟩ := p
    by_cases hk : k = r.id <;> simp [removeResp, hk, ih]

/-- Entries matching neither parser leave the listener state untouched. -/
theorem processEntries_skip (pR : String → Option CommandResponse)
    (pN : String → Option NotificationResult) (entries : List String)
    (s : RegistryState) (h : ∀ e ∈ entries, pR e = none) :
    processEntries pR pN entries s = s := by
  induction entries with
  | nil => rfl
  | cons e rest ih =>
    have he : pR e = none := h e (by simp)
    have hrest : ∀ e' ∈ rest, pR e' = none := fun e' h' => h e' (by simp [h'])
    cases hpn : pN e <;> simp [processEntries, he, hpn, ih hrest]

/-- `wrap32` is idempotent under successor: wrapping the already-wrapped
counter before incrementing gives the same value as wrapping once. -/
theorem wrap32_add_one (x : Int) : wrap32 (wrap32 x + 1) = wrap32 (x + 1) := by
  unfold wrap32
  omega

/-- The counter stored after the `k`-th call to `next` is the initial value
plus `k + 1`, wrapped. -/
theorem idSeq_state (s0 : Int) (k : Nat) :
    (UniqueCommandId.idSeq s0 k).2 = wrap32 (s0 + k + 1) := by
  induction k with
  | zero => simp [UniqueCommandId.idSeq, UniqueCommandId.next]
  | succ k ih =>
    show (UniqueCommandId.next (UniqueCommandId.idSeq s0 k).2).2 = _
    rw [UniqueCommandId.next, ih]
    show wrap32 (wrap32 (s0 + k + 1) + 1) = _
    rw [wrap32_add_one]
    have hc : (s0 + ((k : Nat) + 1 : Nat) + 1 : Int) = s0 + (k : Int) + 1 + 1 := by
      push_cast
      ring
    rw [hc]

/-- The three byte components occupy disjoint bit ranges, so the bitwise ors
of `get_rgb_color` coincide with the weighted sum. -/
theorem rgb_or_eq_add (rv gv bv : Nat) (hg : gv < 256) (hb : bv < 256) :
    (rv <<< 16 ||| gv <<< 8) ||| bv = 65536 * rv + 256 * gv + bv := by
  have hg8 : gv <<< 8 = 2 ^ 8 * gv := by rw [Nat.shiftLeft_eq]; ring
  have hr16 : rv <<< 16 = 2 ^ 16 * rv := by rw [Nat.shiftLeft_eq]; ring
  have h1 : rv <<< 16 ||| gv <<< 8 = 2 ^ 16 * rv + 2 ^ 8 * gv := by
    rw [hr16, hg8, ← Nat.mul_add_lt_is_or (show 2 ^ 8 * gv < 2 ^ 16 by omega) rv]
  have h2 : 2 ^ 16 * rv + 2 ^ 8 * gv = 2 ^ 8 * (2 ^ 8 * rv + gv) := by ring
  calc (rv <<< 16 ||| gv <<< 8) ||| bv
      = 2 ^ 8 * (2 ^ 8 * rv + gv) ||| bv := by rw [h1, h2]
    _ = 2 ^ 8 * (2 ^ 8 * rv + gv) + bv :=
        (Nat.mul_add_lt_is_or (show bv < 2 ^ 8 by omega) _).symm
    _ = 65536 * rv + 256 * gv + bv := by ring

/-! ## Claim theorems -/

/-- **C1 — counterexample.**  The claim states that a response already present
in the registry when its `execute_command` call begins waiting is always
returned.  In the `src/src/device.rs` revision the loop awaits
`notify.notified()` *before* checking the registry, and the inner deadline's
elapse propagates out through `?` before any check; so with the response for
id 7 stored but the `Notify` permit absent (reachable: `notify_one` at
insertion time delivered the wakeup to a different, already-blocked waiter
instead of storing a permit), the call returns `Timeout` and the response is
never consumed. -/
theorem C1_counterexample :
    (((Responses.new.add ⟨7, [CommandResult.Ok], none⟩).consume 7).1
      = some ⟨7, [CommandResult.Ok], none⟩) ∧
    executeLoopWaitFirst 5 (Responses.new.add ⟨7, [CommandResult.Ok], none⟩) false 7
      = ExecOutcome.timeout := by
  exact ⟨rfl, rfl⟩

/-- **C1 — amended.**  A response already present when the call begins
waiting is returned in the apyee revision unconditionally (its loop checks
`consume` before each wait), and in the `src/src` revision provided the
`Notify` permit stored by the insertion is still available: there the check
runs only after a successful wait, so delivery does depend on the insertion's
wakeup permit not having been taken by another waiter. -/
theorem C1_present_response_delivered (fuel : Nat) (reg : Responses)
    (r : CommandResponse) (p : Bool) :
    executeLoopCheckFirst (fuel + 1) (reg.add r) p r.id = ExecOutcome.ok r ∧
    executeLoopWaitFirst (fuel + 1) (reg.add r) true r.id = ExecOutcome.ok r := by
  constructor
  · simp [executeLoopCheckFirst, consume_add_self reg r]
  · simp [executeLoopWaitFirst, consume_add_self reg r]

/-- **C2 — the code at the failing input.**  When `try_read` reports
end-of-stream (`Ok(0)`) the listener returns `Ok(())` leaving the registry
and the `Notify` untouched — there is no `close` operation at all (and
`DeviceError` has no `ConnectionClosed` variant) — so a caller blocked on
id 7 is never woken and both revisions' wait loops run out their deadlines
and return the `Timeout` error; an I/O failure terminates the listener the
same way, with the error merely printed by
`listen_responses_console_error`. -/
theorem C2_eof_strands_blocked_callers :
    listenStep (fun _ => none) (fun _ => none) (ReadEvent.read [])
        ⟨Responses.new, ⟨false, []⟩⟩
      = (ListenerOutcome.doneOk, ⟨Responses.new, ⟨false, []⟩⟩) ∧
    listenStep (fun _ => none) (fun _ => none) ReadEvent.ioFailure
        ⟨Responses.new, ⟨false, []⟩⟩
      = (ListenerOutcome.doneErr DeviceError.io, ⟨Responses.new, ⟨false, []⟩⟩) ∧
    executeLoopWaitFirst 5 Responses.new false 7 = ExecOutcome.timeout ∧
    executeLoopCheckFirst 5 Responses.new false 7 = ExecOutcome.timeout := by
  exact ⟨rfl, rfl, rfl, rfl⟩

/-- **C3 — the code at the failing input.**  A complete frame whose bytes
arrive split across two reads is never extracted: each read is split on
`"\r\n"` in isolation (`data.split_terminator` on a buffer local to the loop
iteration), so the two halves are passed to the parsers separately and the
complete frame text is not among the extracted entries of either read,
whereas the spec-mandated model that carries a buffer across reads
(`bufferedExtract`) holds the first half back and delivers the complete
frame after the second read. -/
theorem C3_split_frame_lost :
    splitTerminatorCRLF "\x7b\"id\":7,\"r"
        ++ splitTerminatorCRLF "esult\":[\"ok\"],\"error\":null\x7d\r\n"
      = ["\x7b\"id\":7,\"r", "esult\":[\"ok\"],\"error\":null\x7d"] ∧
    "\x7b\"id\":7,\"result\":[\"ok\"],\"error\":null\x7d"
      ∉ splitTerminatorCRLF "\x7b\"id\":7,\"r"
        ++ splitTerminatorCRLF "esult\":[\"ok\"],\"error\":null\x7d\r\n" ∧
    bufferedExtract "" "\x7b\"id\":7,\"r" = ([], "\x7b\"id\":7,\"r") ∧
    bufferedExtract "\x7b\"id\":7,\"r" "esult\":[\"ok\"],\"error\":null\x7d\r\n"
      = (["\x7b\"id\":7,\"result\":[\"ok\"],\"error\":null\x7d"], "") := by
  refine ⟨rfl, by decide, rfl, rfl⟩

/-- **C4 — counterexample.**  A read whose bytes are not valid UTF-8 (here a
frame starting with the byte `0xFF`, followed by the terminator) terminates
the listener task: `std::str::from_utf8(&buffer[..n])?` propagates the
`Utf8` error out of `listen_responses` before any per-frame parsing runs
(the entry parsers are never consulted on this path), contradicting the
claim that no malformed frame — including invalid text — terminates the
task. -/
theorem C4_invalid_utf8_terminates_listener :
    listenStep (fun _ => none) (fun _ => none)
        (ReadEvent.read [0xFF, 0x0D, 0x0A]) ⟨Responses.new, ⟨false, []⟩⟩
      = (ListenerOutcome.doneErr DeviceError.utf8, ⟨Responses.new, ⟨false, []⟩⟩) := by
  rfl

/-- **C4 — amended.**  For reads that are valid UTF-8 the claim holds: the
listener step keeps running whatever the two parsers decide about each
entry, and entries that parse as neither a response nor a notification leave
the registry state untouched.  A read containing invalid UTF-8, however,
terminates the task (see the counterexample). -/
theorem C4_valid_utf8_frames_never_terminate
    (pR : String → Option CommandResponse)
    (pN : String → Option NotificationResult)
    (bytes : List Nat) (s : RegistryState) (cs : List Char)
    (hne : bytes ≠ []) (hdec : utf8Decode bytes = some cs) :
    (listenStep pR pN (ReadEvent.read bytes) s).1 = ListenerOutcome.running ∧
    (∀ entries, (∀ e ∈ entries, pR e = none) →
      processEntries pR pN entries s = s) := by
  constructor
  · simp [listenStep, hne, hdec]
  · exact fun entries h => processEntries_skip pR pN entries s h

/-- **C4 — witness.** -/
theorem C4_valid_utf8_frames_never_terminate_witness :
    ([0x78] ≠ ([] : List Nat)) ∧ utf8Decode [0x78] = some ['x'] ∧
    (listenStep (fun _ => none) (fun _ => none) (ReadEvent.read [0x78])
      ⟨Responses.new, ⟨false, []⟩⟩).1 = ListenerOutcome.running :=
  ⟨by decide, by rfl,
    (C4_valid_utf8_frames_never_terminate (fun _ => none) (fun _ => none)
      [0x78] ⟨Responses.new, ⟨false, []⟩⟩ ['x'] (by decide) (by rfl)).1⟩

/-- **C5 — the code at the failing input.**  The registry offers only `add`
and `consume`; there is no eviction, expiry or grace-period path anywhere in
`device.rs`.  Consequently an entry whose caller abandoned its wait survives
every sequence of registry operations that never consumes its id: the map
retains it indefinitely, contradicting the claimed bounded-grace-period
removal. -/
theorem C5_abandoned_entry_never_evicted (ops : List RegOp) (reg : Responses)
    (id : Int) (r : CommandResponse)
    (hpresent : findResp reg.responses id = some r)
    (hnocons : ∀ o ∈ ops, o ≠ RegOp.consume id) :
    ∃ r', findResp (applyRegOps ops reg).responses id = some r' := by
  induction ops generalizing reg r with
  | nil => exact ⟨r, hpresent⟩
  | cons o rest ih =>
    have hrest : ∀ o' ∈ rest, o' ≠ RegOp.consume id := fun o' h' =>
      hnocons o' (by simp [h'])
    have hstep : ∃ r', findResp (applyRegOp o reg).responses id = some r' := by
      cases o with
      | add r' =>
        by_cases hid : r'.id = id
        · exact ⟨r', by simp [applyRegOp, Responses.add, findResp, hid]⟩
        · refine ⟨r, ?_⟩
          simp only [applyRegOp, Responses.add, findResp]
          rw [if_neg hid, findResp_removeResp _ _ _ hid]
          exact hpresent
      | consume j =>
        have hj : j ≠ id := by
          intro h
          exact hnocons (RegOp.consume j) (by simp) (by rw [h])
        exact ⟨r, by
          simp only [applyRegOp, Responses.consume]
          rw [findResp_removeResp _ _ _ hj]
          exact hpresent⟩
    obtain ⟨r', hr'⟩ := hstep
    have : applyRegOps (o :: rest) reg = applyRegOps rest (applyRegOp o reg) := rfl
    rw [this]
    exact ih (applyRegOp o reg) r' hr' hrest

/-- **C5 — witness.** -/
theorem C5_abandoned_entry_never_evicted_witness :
    ∃ r', findResp (applyRegOps [RegOp.add ⟨3, [], none⟩, RegOp.consume 3]
      (Responses.new.add ⟨99, [CommandResult.Ok], none⟩)).responses 99 = some r' :=
  C5_abandoned_entry_never_evicted _ _ 99 ⟨99, [CommandResult.Ok], none⟩
    (by rfl) (by decide)

/-- **C6 — counterexample.**  The two parse attempts in the listener are
independent `if let` statements, not an `else`-chain, and serde's derived
deserializers ignore unknown fields; hence one frame can parse as *both* a
`CommandResponse` and a `NotificationResult`, refuting "classified as at most
one of Response or Notification". -/
theorem C6_counterexample :
    CommandResponse.fromJson (Json.obj [("id", .num 1), ("result", .arr [.str "ok"]),
        ("error", .null), ("method", .str "props"), ("params", .obj [("power", .str "on")])])
      = some ⟨1, [CommandResult.Ok], none⟩ ∧
    NotificationResult.fromJson (Json.obj [("id", .num 1), ("result", .arr [.str "ok"]),
        ("error", .null), ("method", .str "props"), ("params", .obj [("power", .str "on")])])
      = some ⟨"props", [(Property.Power, .str "on")]⟩ := by
  exact ⟨rfl, rfl⟩

/-- **C6 — amended.**  A frame may match both parse attempts, but no frame is
double-*counted*: the notification branch's body is only a `TODO` comment, so
the notification parse has no effect whatsoever on the listener state — the
registry routing of every entry is decided solely by the `CommandResponse`
parse (at most one insert per frame). -/
theorem C6_notification_parse_never_affects_state
    (pR : String → Option CommandResponse)
    (pN pN' : String → Option NotificationResult)
    (entries : List String) (s : RegistryState) :
    processEntries pR pN entries s = processEntries pR pN' entries s := by
  induction entries generalizing s with
  | nil => rfl
  | cons e rest ih =>
    cases hp : pR e <;> cases hn : pN e <;> cases hn' : pN' e <;>
      simp [processEntries, hp, hn, hn', ih]

/-- **C7 — counterexample.**  With two waiters blocked, the listener's
insertion (`responses.add` followed by `notify.notify_one()`) wakes only the
first: `notify_one` is a single-waiter wakeup, not the claimed broadcast, so
the second waiter stays blocked and does not get to re-check `try_take`. -/
theorem C7_counterexample :
    (listenerInsert ⟨7, [CommandResult.Ok], none⟩
        ⟨Responses.new, ⟨false, [0, 1]⟩⟩).1 = [0] ∧
    (listenerInsert ⟨7, [CommandResult.Ok], none⟩
        ⟨Responses.new, ⟨false, [0, 1]⟩⟩).2.notify.waiters = [1] := by
  exact ⟨rfl, rfl⟩

/-- **C7 — amended.**  Every insert stores the response and then wakes
exactly one waiter — the frontmost — when any are blocked; when none are
blocked it stores a single permit instead.  Only the woken waiter re-checks
`try_take`; the remaining waiters stay blocked until a further insert or
their own deadline. -/
theorem C7_insert_wakes_exactly_one (r : CommandResponse) (reg : Responses)
    (p : Bool) (w : Nat) (ws : List Nat) :
    listenerInsert r ⟨reg, ⟨p, []⟩⟩ = ([], ⟨reg.add r, ⟨true, []⟩⟩) ∧
    listenerInsert r ⟨reg, ⟨p, w :: ws⟩⟩ = ([w], ⟨reg.add r, ⟨p, ws⟩⟩) := by
  exact ⟨rfl, rfl⟩

/-- **C8 — confirmed.**  `UniqueCommandId::next` is a total (never-failing)
post-increment: starting from any valid `i32` counter value, the `k`-th call
returns the initial value advanced by `k` with two's-complement wraparound
(`wrap32`, reduction modulo `2^32`), and any two calls whose indices differ
by less than the wrap period `2^32` return distinct identifiers. -/
theorem C8_next_wraps_and_ids_distinct (s0 : Int)
    (h1 : -(2 ^ 31) ≤ s0) (h2 : s0 < 2 ^ 31) :
    (∀ k : Nat, UniqueCommandId.nthId s0 k = wrap32 (s0 + k)) ∧
    (∀ i j : Nat, i < j → (j : Int) - i < 2 ^ 32 →
      UniqueCommandId.nthId s0 i ≠ UniqueCommandId.nthId s0 j) := by
  have hform : ∀ k : Nat, UniqueCommandId.nthId s0 k = wrap32 (s0 + k) := by
    intro k
    cases k with
    | zero =>
      show s0 = wrap32 (s0 + 0)
      unfold wrap32
      omega
    | succ k =>
      show (UniqueCommandId.next (UniqueCommandId.idSeq s0 k).2).1 = _
      rw [UniqueCommandId.next, idSeq_state]
      have hc : (s0 + ((k : Nat) + 1 : Nat) : Int) = s0 + (k : Int) + 1 := by
        push_cast
        ring
      rw [hc]
  refine ⟨hform, fun i j hij hlt heq => ?_⟩
  rw [hform i, hform j] at heq
  unfold wrap32 at heq
  have hi : (i : Int) < j := by exact_mod_cast hij
  omega

/-- **C8 — witness.** -/
theorem C8_next_wraps_and_ids_distinct_witness :
    (-(2 ^ 31) ≤ (15 : Int)) ∧ ((15 : Int) < 2 ^ 31) ∧
    UniqueCommandId.nthId 15 0 ≠ UniqueCommandId.nthId 15 1 :=
  ⟨by decide, by decide,
    (C8_next_wraps_and_ids_distinct 15 (by decide) (by decide)).2 0 1
      (by decide) (by decide)⟩

/-- **C9 — counterexample.**  In the `src/src` revision `Command` has no
`#[serde(from = "RawCommand")]` attribute, so parsing the emitted frame uses
`Method`'s own derived deserializer, which accepts a bare variant-name string
only for unit variants; for `set_rgb` (a data-carrying variant) it fails, so
serializing `Command::new(7, Method::SetRgb(500))` and parsing the emitted
frame back does not reconstruct the tuple — the parse errors out. -/
theorem C9_counterexample :
    Command.toJson (Command.new 7 (Method.SetRgb 500))
      = Json.obj [("id", .num 7), ("method", .str "set_rgb"),
          ("params", .arr [.num 500])] ∧
    Command.fromJson (Command.toJson (Command.new 7 (Method.SetRgb 500))) = none := by
  exact ⟨rfl, rfl⟩

/-- **C9 — amended.**  Serializing any `Command` yields exactly the claimed
frame shape `{"id": <int>, "method": "<operation>", "params": [...]}`; the
apyee revision's `RawCommand` path parses every such emitted frame back to
the exact `(id, operation-name, params)` triple (with `Method::from(&raw)`
modelled from the spec as the catalog pair), and the `src/src` derived path
round-trips only parameterless methods such as `toggle`. -/
theorem C9_roundtrip_via_rawcommand (c : Command) (hid : c.id < 2 ^ 31) :
    Command.toJson c = Json.obj [("id", .num (c.id : Int)),
        ("method", .str c.method.serdeName), ("params", .arr c.params)] ∧
    RawCommand.fromJson (Command.toJson c)
      = some ⟨(c.id : Int), c.method.serdeName, c.params⟩ ∧
    CommandOfRaw.from_raw ⟨(c.id : Int), c.method.serdeName, c.params⟩
      = ⟨(c.id : Int), ⟨c.method.serdeName, c.params⟩, c.params⟩ ∧
    Command.fromJson (Command.toJson (Command.new c.id Method.Toggle))
      = some (Command.new c.id Method.Toggle) := by
  have h2 : (c.id : Int) < 2 ^ 31 := by exact_mod_cast hid
  have h1 : -(2 ^ 31 : Int) ≤ (c.id : Int) := by
    have := Int.natCast_nonneg c.id
    omega
  refine ⟨rfl, ?_, rfl, ?_⟩
  · show RawCommand.fromJson (Json.obj [("id", .num (c.id : Int)),
        ("method", .str c.method.serdeName), ("params", .arr c.params)]) = _
    have hA : getField [("id", Json.num (c.id : Int)),
        ("method", .str c.method.serdeName), ("params", .arr c.params)] "id"
        = some (Json.num (c.id : Int)) := rfl
    have hB : getField [("id", Json.num (c.id : Int)),
        ("method", .str c.method.serdeName), ("params", .arr c.params)] "method"
        = some (Json.str c.method.serdeName) := rfl
    have hC : getField [("id", Json.num (c.id : Int)),
        ("method", .str c.method.serdeName), ("params", .arr c.params)] "params"
        = some (Json.arr c.params) := rfl
    simp only [RawCommand.fromJson, hA, hB, hC]
    rw [if_pos ⟨h1, h2⟩]
  · have h0 : (0 : Int) ≤ (c.id : Int) := Int.natCast_nonneg c.id
    have h64 : (c.id : Int) < 2 ^ 64 := by omega
    show Command.fromJson (Json.obj [("id", Json.num (c.id : Int)),
        ("method", Json.str "toggle"), ("params", Json.arr [])]) = _
    have hA : getField [("id", Json.num (c.id : Int)), ("method", Json.str "toggle"),
        ("params", Json.arr [])] "id" = some (Json.num (c.id : Int)) := rfl
    have hB : getField [("id", Json.num (c.id : Int)), ("method", Json.str "toggle"),
        ("params", Json.arr [])] "method" = some (Json.str "toggle") := rfl
    have hC : getField [("id", Json.num (c.id : Int)), ("method", Json.str "toggle"),
        ("params", Json.arr [])] "params" = some (Json.arr []) := rfl
    simp only [Command.fromJson, hA, hB, hC]
    rw [if_pos ⟨h0, h64⟩]
    have hm : Method.fromJson (Json.str "toggle") = some Method.Toggle := rfl
    rw [hm]
    simp [Command.new, Method.get_params, Int.toNat_natCast]

/-- **C9 — witness.** -/
theorem C9_roundtrip_via_rawcommand_witness :
    (Command.new 7 Method.Toggle).id < 2 ^ 31 ∧
    RawCommand.fromJson (Command.toJson (Command.new 7 Method.Toggle))
      = some ⟨7, "toggle", []⟩ :=
  ⟨by decide, (C9_roundtrip_via_rawcommand (Command.new 7 Method.Toggle)
      (by decide)).2.1⟩

/-- **C10 — confirmed.**  `Device::get_rgb_color` packs the three `u8`
components into disjoint bit ranges, so the bitwise ors coincide with
`65536*r + 256*g + b`, and the result always lies in `[0, 16777215]` — a
non-negative 24-bit value despite the `i32` return type. -/
theorem C10_get_rgb_color_packs (r g b : Fin 256) :
    Device.get_rgb_color r g b = 65536 * (r.val : Int) + 256 * g.val + b.val ∧
    0 ≤ Device.get_rgb_color r g b ∧
    Device.get_rgb_color r g b ≤ 16777215 := by
  have h := rgb_or_eq_add r.val g.val b.val g.isLt b.isLt
  have hr := r.isLt
  have hg := g.isLt
  have hb := b.isLt
  unfold Device.get_rgb_color
  rw [h]
  refine ⟨by push_cast; ring, Int.natCast_nonneg _, by push_cast; omega⟩

end Apyee
